import Mathlib

/-!
Verification of the 6G news summarizer's core logic against its
natural-language specification.

Python strings are embedded as `List Char` (one `Char` per Unicode code
point, matching Python's code-point-indexed `str`).  Each definition below
is a direct translation of the function of the same name in
`scripts/fetch_6g_professional.py` (or, for `_preserve_original_urls`, of
`test_url_preservation.py`); effectful inputs (environment variables, HTTP
responses, the current date) are passed explicitly as parameters, and code
that can raise is modelled in `Except`.
-/

set_option maxRecDepth 40000
set_option maxHeartbeats 4000000

namespace SixG

/-- Fuelled worker for `pyReplace` (the fuel makes the recursion
structural, hence kernel-computable; one unit of fuel is spent per scanned
position, so `l.length` fuel always suffices). -/
def pyReplaceF (old new : List Char) : Nat → List Char → List Char
  | _, [] => []
  | 0, l => l
  | f + 1, c :: cs =>
    if old ≠ [] ∧ old.isPrefixOf (c :: cs) then
      new ++ pyReplaceF old new f ((c :: cs).drop old.length)
    else
      c :: pyReplaceF old new f cs

/-- Python `str.replace(old, new)`: replace every non-overlapping occurrence
of `old`, scanning left to right.  (For the empty pattern the functions in
this development never call it, and we return the string unchanged.) -/
def pyReplace (old new l : List Char) : List Char :=
  pyReplaceF old new l.length l

/-- The NUL character used by `clean_json_string` as a temporary marker. -/
def nulChar : Char := Char.ofNat 0

/-- `clean_json_string` from `scripts/fetch_6g_professional.py` (lines
24-34): protect escaped-backslash pairs behind a NUL marker, delete the
remaining (lone) backslashes, then restore the marker. -/
def clean_json_string (text : List Char) : List Char :=
  let step1 := pyReplace ['\\', '\\'] [nulChar] text
  let step2 := pyReplace ['\\'] [] step1
  pyReplace [nulChar] ['\\', '\\'] step2

/-- Helper characterisation used in proofs: the first `str.replace` of
`clean_json_string`, written as a direct recursion. -/
def protectPairs : List Char → List Char
  | '\\' :: '\\' :: t => nulChar :: protectPairs t
  | c :: t => c :: protectPairs t
  | [] => []

/-- Helper characterisation used in proofs: the third `str.replace` of
`clean_json_string`, written as a direct recursion. -/
def restoreNul : List Char → List Char
  | [] => []
  | c :: t => if c = nulChar then '\\' :: '\\' :: restoreNul t else c :: restoreNul t

/-- Specification-side description of the sanitizer's backslash handling:
keep every escaped-backslash pair (`\\`) exactly, delete every remaining
lone backslash, and leave all other characters untouched. -/
def keepEscapedPairs : List Char → List Char
  | '\\' :: '\\' :: t => '\\' :: '\\' :: keepEscapedPairs t
  | '\\' :: t => keepEscapedPairs t
  | c :: t => c :: keepEscapedPairs t
  | [] => []

/-- The whitespace class matched by Python's regex `\s` and stripped by
`str.strip()` (ASCII part; the inputs handled by this program are covered
by it). -/
def isPySpace (c : Char) : Bool :=
  c = ' ' ∨ c = '\t' ∨ c = '\n' ∨ c = '\r' ∨ c = '\x0b' ∨ c = '\x0c'

/-- Python `str.strip()`: drop whitespace from both ends. -/
def pyStrip (l : List Char) : List Char :=
  ((l.dropWhile isPySpace).reverse.dropWhile isPySpace).reverse

/-- After a matched ```` ``` ````, the regex `(?:json|python)?` consumes an
optional keyword (alternatives tried left to right). -/
def dropFenceKeyword (l : List Char) : List Char :=
  if List.isPrefixOf ['j', 's', 'o', 'n'] l then l.drop 4
  else if List.isPrefixOf ['p', 'y', 't', 'h', 'o', 'n'] l then l.drop 6
  else l

/-- Fuelled worker for `fenceSub` (one unit of fuel per scanned position;
a fence match consumes at least three characters, so `l.length` fuel
always suffices). -/
def fenceSubF : Nat → List Char → List Char
  | _, [] => []
  | 0, l => l
  | f + 1, c :: cs =>
    if c = '`' ∧ List.isPrefixOf ['`', '`'] cs then
      fenceSubF f ((dropFenceKeyword (cs.drop 2)).dropWhile isPySpace)
    else
      c :: fenceSubF f cs

/-- `re.sub(r'```(?:json|python)?\s*', '', text)` from
`extract_json_from_text`: remove every code-fence marker together with the
optional language tag and following whitespace, scanning left to right. -/
def fenceSub (l : List Char) : List Char :=
  fenceSubF l.length l

/-- Index of the first occurrence of `c`, if any. -/
def firstIdxOf (c : Char) : List Char → Option Nat
  | [] => none
  | a :: t => if a = c then some 0 else (firstIdxOf c t).map (· + 1)

/-- Index of the last occurrence of `c`, if any. -/
def lastIdxOf (c : Char) : List Char → Option Nat
  | [] => none
  | a :: t =>
    match lastIdxOf c t with
    | some i => some (i + 1)
    | none => if a = c then some 0 else none

/-- `re.search(r'\[[\s\S]*\]', text)` (and its `{...}` analogue): the
greedy match runs from the first opening bracket to the last closing
bracket of the whole text, and exists exactly when some closing bracket
appears after the first opening one. -/
def greedySpan (openC closeC : Char) (l : List Char) : Option (List Char) :=
  match firstIdxOf openC l, lastIdxOf closeC l with
  | some i, some j => if i < j then some ((l.drop i).take (j - i + 1)) else none
  | _, _ => none

/-- `extract_json_from_text` from `scripts/fetch_6g_professional.py`
(lines 36-52): strip Markdown code fences, then return the first greedy
`[...]` span, else the first greedy `{...}` span, else the stripped text. -/
def extract_json_from_text (text : List Char) : List Char :=
  let t1 := fenceSub text
  let t2 := pyReplace ['`', '`', '`'] [] t1
  match greedySpan '[' ']' t2 with
  | some s => pyStrip s
  | none =>
    match greedySpan '{' '}' t2 with
    | some s => pyStrip s
    | none => pyStrip t2

/-- The wrapping of a JSON payload in Markdown code fences that claim C3
talks about: ```` ```json\n<J>\n``` ````. -/
def fenceWrap (j : List Char) : List Char :=
  ('`' :: '`' :: '`' :: "json\n".toList) ++ j ++ ('\n' :: '`' :: '`' :: ['`'])

/-- `true` when the text contains three consecutive backticks (a code-fence
marker). -/
def hasTripleTick : List Char → Bool
  | '`' :: '`' :: '`' :: _ => true
  | _ :: t => hasTripleTick t
  | [] => false

/-! ### A reference model of Python's `json.loads`

The repository parses LLM output with `json.loads`.  The value model below
follows the JSON grammar that `json.loads` implements: integer tokens
decode to Python `int` (kept as `Int`), tokens with a fraction or exponent
decode to `float` (kept as the raw token), and `isinstance(x, int)` is
`True` for both `int` and `bool` in Python.  Surrogate-pair `\uXXXX`
escapes are decoded code unit by code unit (a divergence from CPython that
no input in this development exercises). -/

/-- A parsed JSON value, as `json.loads` would produce it. -/
inductive Json where
  | null
  | jbool (b : Bool)
  | jint (n : Int)
  | jfloat (tok : List Char)
  | jstr (s : List Char)
  | jarr (elems : List Json)
  | jobj (fields : List (List Char × Json))

/-- JSON inter-token whitespace (` `, TAB, LF, CR). -/
def jsonSkipWs (l : List Char) : List Char :=
  l.dropWhile fun c => c = ' ' ∨ c = '\t' ∨ c = '\n' ∨ c = '\r'

/-- Value of one hexadecimal digit. -/
def hexVal (c : Char) : Option Nat :=
  if '0' ≤ c ∧ c ≤ '9' then some (c.toNat - '0'.toNat)
  else if 'a' ≤ c ∧ c ≤ 'f' then some (c.toNat - 'a'.toNat + 10)
  else if 'A' ≤ c ∧ c ≤ 'F' then some (c.toNat - 'A'.toNat + 10)
  else none

/-- Decoding of a single-character JSON string escape. -/
def escChar (e : Char) : Option Char :=
  if e = '"' then some '"'
  else if e = '\\' then some '\\'
  else if e = '/' then some '/'
  else if e = 'b' then some (Char.ofNat 8)
  else if e = 'f' then some (Char.ofNat 12)
  else if e = 'n' then some '\n'
  else if e = 'r' then some '\r'
  else if e = 't' then some '\t'
  else none

/-- Body of a JSON string (the opening quote already consumed): returns the
decoded content and the remainder after the closing quote.  Raw control
characters are rejected, as by `json.loads` in its default strict mode. -/
def parseStringBody : List Char → Option (List Char × List Char)
  | [] => none
  | c :: rest =>
    if c = '"' then some ([], rest)
    else if c = '\\' then
      match rest with
      | [] => none
      | e :: rest2 =>
        if e = 'u' then
          match rest2 with
          | h1 :: h2 :: h3 :: h4 :: rest3 =>
            match hexVal h1, hexVal h2, hexVal h3, hexVal h4 with
            | some a, some b, some c2, some d =>
              (parseStringBody rest3).map fun p =>
                (Char.ofNat (((a * 16 + b) * 16 + c2) * 16 + d) :: p.1, p.2)
            | _, _, _, _ => none
          | _ => none
        else
          match escChar e with
          | some ec => (parseStringBody rest2).map fun p => (ec :: p.1, p.2)
          | none => none
    else if c.toNat < 32 then none
    else (parseStringBody rest).map fun p => (c :: p.1, p.2)

/-- Split a leading run of decimal digits. -/
def digitSpan (l : List Char) : List Char × List Char :=
  l.span fun c => c.isDigit

/-- Decimal value of a digit string. -/
def digitsToNat (ds : List Char) : Nat :=
  ds.foldl (fun acc c => acc * 10 + (c.toNat - 48)) 0

/-- Fraction/exponent tail of a number token (helper of `parseNumber`). -/
def numTail (sign : Bool) (intDigits : List Char) (r : List Char) : Option (Json × List Char) :=
  let (fracDigits, r2) : List Char × List Char := match r with
    | '.' :: r1 =>
      match digitSpan r1 with
      | ([], _) => ([], r)
      | (ds, rr) => ('.' :: ds, rr)
    | _ => ([], r)
  let (expDigits, r3) : List Char × List Char := match r2 with
    | e :: r1 =>
      if e = 'e' ∨ e = 'E' then
        let (es, r2') : List Char × List Char := match r1 with
          | '+' :: rr => (['+'], rr)
          | '-' :: rr => (['-'], rr)
          | _ => ([], r1)
        match digitSpan r2' with
        | ([], _) => ([], r2)
        | (ds, rr) => (e :: es ++ ds, rr)
      else ([], r2)
    | _ => ([], r2)
  if fracDigits = [] ∧ expDigits = [] then
    let n : Int := Int.ofNat (digitsToNat intDigits)
    some (.jint (if sign then -n else n), r3)
  else
    some (.jfloat ((if sign then ['-'] else []) ++ intDigits ++ fracDigits ++ expDigits), r3)

/-- A JSON number token, following the grammar used by `json.loads`:
`-?(0|[1-9][0-9]*)(\.[0-9]+)?([eE][+-]?[0-9]+)?`.  Integer tokens become
`jint`; tokens with a fraction or exponent become `jfloat` carrying the
matched token. -/
def parseNumber (l : List Char) : Option (Json × List Char) :=
  let (sign, r) := match l with
    | '-' :: r => (true, r)
    | _ => (false, l)
  match r with
  | [] => none
  | d :: r2 =>
    if d = '0' ∨ ¬ d.isDigit then
      if d = '0' then
        numTail sign ['0'] r2
      else
        none
    else
      let (ds, r3) := digitSpan r2
      numTail sign (d :: ds) r3

mutual

/-- Parse one JSON value (fuel-indexed recursive descent). -/
def parseValue : Nat → List Char → Option (Json × List Char)
  | 0, _ => none
  | Nat.succ fuel, l =>
    match jsonSkipWs l with
    | [] => none
    | c :: rest =>
      if c = 'n' then
        if List.isPrefixOf ['u', 'l', 'l'] rest then some (.null, rest.drop 3) else none
      else if c = 't' then
        if List.isPrefixOf ['r', 'u', 'e'] rest then some (.jbool true, rest.drop 3) else none
      else if c = 'f' then
        if List.isPrefixOf ['a', 'l', 's', 'e'] rest then some (.jbool false, rest.drop 4) else none
      else if c = '"' then
        (parseStringBody rest).map fun p => (.jstr p.1, p.2)
      else if c = '[' then
        match jsonSkipWs rest with
        | ']' :: r => some (.jarr [], r)
        | l2 => (parseElems fuel l2).map fun p => (.jarr p.1, p.2)
      else if c = '{' then
        match jsonSkipWs rest with
        | '}' :: r => some (.jobj [], r)
        | l2 => (parseFields fuel l2).map fun p => (.jobj p.1, p.2)
      else if c = '-' ∨ c.isDigit then
        parseNumber (c :: rest)
      else none

/-- Parse the elements of a non-empty JSON array, up to and including the
closing `]`. -/
def parseElems : Nat → List Char → Option (List Json × List Char)
  | 0, _ => none
  | Nat.succ fuel, l =>
    match parseValue fuel l with
    | none => none
    | some (v, r) =>
      match jsonSkipWs r with
      | ',' :: r2 => (parseElems fuel r2).map fun p => (v :: p.1, p.2)
      | ']' :: r2 => some ([v], r2)
      | _ => none

/-- Parse the fields of a non-empty JSON object, up to and including the
closing `}`. -/
def parseFields : Nat → List Char → Option (List (List Char × Json) × List Char)
  | 0, _ => none
  | Nat.succ fuel, l =>
    match jsonSkipWs l with
    | '"' :: r =>
      match parseStringBody r with
      | none => none
      | some (key, r2) =>
        match jsonSkipWs r2 with
        | ':' :: r3 =>
          match parseValue fuel r3 with
          | none => none
          | some (v, r4) =>
            match jsonSkipWs r4 with
            | ',' :: r5 => (parseFields fuel r5).map fun p => ((key, v) :: p.1, p.2)
            | '}' :: r5 => some ([(key, v)], r5)
            | _ => none
        | _ => none
    | _ => none

end

/-- `json.loads`: parse a complete JSON document (trailing whitespace
allowed, anything else after the value is "Extra data" and fails). -/
def jsonParse (l : List Char) : Option Json :=
  match parseValue (l.length + 1) l with
  | some (v, rest) => if jsonSkipWs rest = [] then some v else none
  | none => none

/-- Whether a text is a valid JSON document (parseable by `json.loads`). -/
def jsonValid (l : List Char) : Bool :=
  (jsonParse l).isSome

/-! ### Data model -/

/-- A normalized fetched record `{title, description, url, type}` as
produced by the fetch adapters. -/
structure SourceItem where
  title : List Char
  description : List Char
  url : List Char
  type : List Char
deriving DecidableEq, Repr

/-- A per-item summary `{title, summary, message, url, type}` as returned
by the LLM (or the no-AI fallback).  The `type` key may be absent from the
LLM's dictionary, hence `Option`; for the other keys the code reads them
either directly or with `.get(…, '')`, and a missing key is modelled as the
empty string. -/
structure SummaryItem where
  title : List Char
  summary : List Char
  message : List Char
  url : List Char
  type : Option (List Char)
deriving DecidableEq, Repr

/-- The report bundle `{summaries, generatedAt}`. -/
structure Bundle where
  summaries : List SummaryItem
  generatedAt : List Char
deriving DecidableEq, Repr

/-! ### URL reconciler (`_preserve_original_urls`, test_url_preservation.py lines 7-36) -/

/-- Python `str.lower()` (ASCII range; the Korean titles this program
handles are unaffected by lowercasing). -/
def pyLower (l : List Char) : List Char :=
  l.map Char.toLower

/-- The title normalization `title.lower().strip()` used on both sides of
the reconciler. -/
def normTitle (t : List Char) : List Char :=
  pyStrip (pyLower t)

/-- Insertion into a Python `dict` rendered as an association list: an
existing key keeps its position and gets the new value, a new key is
appended (insertion order). -/
def dictInsert (k v : List Char) : List (List Char × List Char) → List (List Char × List Char)
  | [] => [(k, v)]
  | (k', v') :: rest => if k' = k then (k', v) :: rest else (k', v') :: dictInsert k v rest

/-- Python `dict` lookup. -/
def dictLookup (k : List Char) : List (List Char × List Char) → Option (List Char)
  | [] => none
  | (k', v') :: rest => if k' = k then some v' else dictLookup k rest

/-- The `original_map` built by `_preserve_original_urls`: normalized title
to original url, later duplicates overwriting earlier values. -/
def buildOriginalMap (items : List SourceItem) : List (List Char × List Char) :=
  items.foldl (fun m it => dictInsert (normTitle it.title) it.url m) []

/-- Python substring containment `p in s` (the empty pattern is contained
in everything). -/
def containsSub (p l : List Char) : Bool :=
  (List.range (l.length + 1)).any fun i => p.isPrefixOf (l.drop i)

/-- Body of the per-summary loop of `_preserve_original_urls`: exact
normalized-title match first; on miss, the first bidirectional substring
match in map order, accepted only when the summary title is longer than 20
characters; otherwise the summary is left unchanged. -/
def reconcileSummary (m : List (List Char × List Char)) (s : SummaryItem) : SummaryItem :=
  let st := normTitle s.title
  match dictLookup st m with
  | some u => { s with url := u }
  | none =>
    match m.find? (fun kv => (containsSub st kv.1 || containsSub kv.1 st) && decide (st.length > 20)) with
    | some kv => { s with url := kv.2 }
    | none => s

/-- `_preserve_original_urls(summaries, original_items)`: the Python
function mutates `summaries` in place and only reads `original_items`; the
in-place update is modelled by returning the final state of both lists. -/
def preserveOriginalUrls (summaries : List SummaryItem) (original_items : List SourceItem) :
    List SummaryItem × List SourceItem :=
  (summaries.map (reconcileSummary (buildOriginalMap original_items)), original_items)

/-! ### Summarizer (`summarize_with_gemini` / `create_summary_without_ai`,
fetch_6g_professional.py lines 508-692)

The HTTP call to the LLM endpoint is an effect; its observable outcome is
passed in explicitly: either an exception was raised, or the response
carried no usable `candidates[0].content.parts[0].text`, or it carried a
text. -/

/-- Observable outcome of one Gemini HTTP call. -/
inductive LlmOutcome where
  | exn
  | noContent
  | withText (t : List Char)
deriving DecidableEq, Repr

/-- `create_summary_without_ai(items)` (lines 675-692): one template
summary per input item — the description truncated to 300 characters (a
fixed placeholder when the description is empty/missing), a fixed
per-type message, and the original url and type.  `today` is the
`datetime.now` date string. -/
def create_summary_without_ai (items : List SourceItem) (today : List Char) : Bundle :=
  { summaries := items.map fun it =>
      { title := it.title
        summary := if it.description ≠ [] then it.description.take 300 else "내용을 확인하세요.".toList
        message := "6G 기술 발전의 최신 동향을 보여주는 ".toList ++ it.type ++ " 자료입니다.".toList
        url := it.url
        type := some it.type }
    generatedAt := today }

/-- Result of `summarize_with_gemini`: either the (possibly normalized)
parsed LLM dictionary, or the deterministic no-AI fallback bundle. -/
inductive SummarizeResult where
  | ai (j : Json)
  | fallback (b : Bundle)

/-- Look up a string key in a parsed JSON object. -/
def jsonField (kvs : List (List Char × Json)) (k : List Char) : Option Json :=
  (kvs.find? fun kv => kv.1 = k).map Prod.snd

/-- The response-processing tail of `summarize_with_gemini` (lines
610-663): extract and sanitize the response text, parse it, normalize an
array response into `{"summaries": …, "generatedAt": today}`, accept a
dictionary that has a `summaries` key as is, and fall back to
`create_summary_without_ai` in every other case (parse failure, dictionary
without `summaries`, non-list/non-dict value). -/
def summarizeProcessText (items : List SourceItem) (today : List Char) (text : List Char) :
    SummarizeResult :=
  let json_text := extract_json_from_text text
  let clean_text := clean_json_string json_text
  match jsonParse clean_text with
  | none => .fallback (create_summary_without_ai items today)
  | some (Json.jarr xs) =>
      .ai (Json.jobj [("summaries".toList, Json.jarr xs), ("generatedAt".toList, Json.jstr today)])
  | some (Json.jobj kvs) =>
      match jsonField kvs "summaries".toList with
      | some _ => .ai (Json.jobj kvs)
      | none => .fallback (create_summary_without_ai items today)
  | some _ => .fallback (create_summary_without_ai items today)

/-- `summarize_with_gemini(items)` (lines 508-673): no API key, a raised
exception, or a response without content all fall back to
`create_summary_without_ai`; a response text goes through
`summarizeProcessText`. -/
def summarize_with_gemini (items : List SourceItem) (today : List Char)
    (api_key : Option (List Char)) (resp : LlmOutcome) : SummarizeResult :=
  match api_key with
  | none => .fallback (create_summary_without_ai items today)
  | some _ =>
    match resp with
    | .exn => .fallback (create_summary_without_ai items today)
    | .noContent => .fallback (create_summary_without_ai items today)
    | .withText t => summarizeProcessText items today t

/-! ### Selector (`select_top_items_for_ran_engineers`, lines 359-504) -/

/-- Python's `isinstance(x, int)` on a `json.loads` value: `True` for both
`int` and `bool` (Python's `bool` is a subclass of `int`), with `True`
counting as `1` and `False` as `0`. -/
def pythonInt : Json → Option Int
  | Json.jint n => some n
  | Json.jbool b => some (if b then 1 else 0)
  | _ => none

/-- The selection loop of `select_top_items_for_ran_engineers` (lines
466-471): keep, in order, each response entry that is a Python `int` in
`1..len(all_items)`, resolved to the `1`-indexed item; everything else is
ignored with a warning. -/
def validSelections (all_items : List SourceItem) (xs : List Json) : List SourceItem :=
  xs.filterMap fun x =>
    match pythonInt x with
    | some idx =>
      if 1 ≤ idx ∧ idx ≤ (all_items.length : Int) then
        all_items.get? (idx.toNat - 1)
      else none
    | none => none

/-- `select_top_items_for_ran_engineers(all_items, top_n)`: missing API
key, a raised exception, missing content, a parse failure, a non-list
response, or fewer than `top_n` valid in-range indices all yield
`all_items[:top_n]`; otherwise the first `top_n` of the selected items. -/
def select_top_items_for_ran_engineers (all_items : List SourceItem) (top_n : Nat)
    (api_key : Option (List Char)) (resp : LlmOutcome) : List SourceItem :=
  match api_key with
  | none => all_items.take top_n
  | some _ =>
    match resp with
    | .exn => all_items.take top_n
    | .noContent => all_items.take top_n
    | .withText t =>
      let json_text := extract_json_from_text (pyStrip t)
      let clean_text := clean_json_string json_text
      match jsonParse clean_text with
      | none => all_items.take top_n
      | some (Json.jarr xs) =>
        let selected_items := validSelections all_items xs
        if selected_items.length ≥ top_n then
          selected_items.take top_n
        else
          all_items.take top_n
      | some _ => all_items.take top_n

/-! ### Publishers

All three publishers group the summaries with
`groups = {'Journal': [], 'Paper': [], 'News': []}` followed by
`groups[item.get('type', 'News')].append(item)`; an unknown type raises
`KeyError`, modelled in `Except`. -/

/-- One step of the grouping loop; `.error ()` is the `KeyError`. -/
def groupsAux (acc : List SummaryItem × List SummaryItem × List SummaryItem) :
    List SummaryItem → Except Unit (List SummaryItem × List SummaryItem × List SummaryItem)
  | [] => .ok acc
  | it :: rest =>
    let t := it.type.getD "News".toList
    if t = "Journal".toList then groupsAux (acc.1 ++ [it], acc.2.1, acc.2.2) rest
    else if t = "Paper".toList then groupsAux (acc.1, acc.2.1 ++ [it], acc.2.2) rest
    else if t = "News".toList then groupsAux (acc.1, acc.2.1, acc.2.2 ++ [it]) rest
    else .error ()

/-- The type-grouping shared by `create_html_email` (lines 831-835),
`create_email_safe_html` (lines 1474-1478) and `send_visual_telegram`
(lines 1641-1645). -/
def groupsOf (summaries : List SummaryItem) :
    Except Unit (List SummaryItem × List SummaryItem × List SummaryItem) :=
  groupsAux ([], [], []) summaries

/-- `create_html_email(summary_data)`: the HTML template around the
grouping is plain string formatting over fields every `SummaryItem`
carries (templates are out of scope per the spec), so the type grouping is
the one step that can raise; the function is modelled down to the grouped
sections it renders. -/
def create_html_email (sd : Bundle) :
    Except Unit (List SummaryItem × List SummaryItem × List SummaryItem) :=
  groupsOf sd.summaries

/-- `create_email_safe_html(summary_data, hot_keyword)`: same grouping,
same modelling as `create_html_email`. -/
def create_email_safe_html (sd : Bundle) :
    Except Unit (List SummaryItem × List SummaryItem × List SummaryItem) :=
  groupsOf sd.summaries

/-- Python `html.escape` (with its default `quote=True`) on one character. -/
def htmlEscapeChar (c : Char) : List Char :=
  if c = '&' then "&amp;".toList
  else if c = '<' then "&lt;".toList
  else if c = '>' then "&gt;".toList
  else if c = '"' then "&quot;".toList
  else if c = Char.ofNat 39 then "&#x27;".toList
  else [c]

/-- Python `html.escape` on a string. -/
def htmlEscape (l : List Char) : List Char :=
  l.foldr (fun c acc => htmlEscapeChar c ++ acc) []

/-- Decimal rendering of a length, as an f-string interpolates it. -/
def natToChars (n : Nat) : List Char :=
  (Nat.repr n).toList

/-- The telegram message header (lines 1649-1660). -/
def telegramHeader (generatedAt hk : List Char) (nJ nP nN : Nat) : List Char :=
  "🔬 <b>6G Technology Intelligence Report</b>\n📅 <i>".toList ++ htmlEscape generatedAt ++
  "</i>\n\n📊 <b>Quick Summary</b>\n├─ 📚 Journals: ".toList ++ natToChars nJ ++
  "\n├─ 📄 Papers: ".toList ++ natToChars nP ++
  "\n└─ 📰 News: ".toList ++ natToChars nN ++ "\n\n".toList ++
  (if hk ≠ [] then
    "🔥 <b>Today\u0027s Hot Keyword:</b> <code>".toList ++ htmlEscape hk ++ "</code>\n\n".toList
  else []) ++
  "━━━━━━━━━━━━━━━━━━━━\n\n".toList

/-- The telegram message footer (lines 1662-1664). -/
def telegramFooter : List Char :=
  "\n━━━━━━━━━━━━━━━━━━━━\n\n🤖 <i>Automated Report for 6G Engineers</i>\n📧 <i>Full details in your email</i>".toList

/-- One rendered telegram item (lines 1676-1688 and their Paper/News
copies): numbered escaped title capped at 100 characters, escaped summary
capped at `sumCap` characters, a link when the url is truthy, and a
separator rule. -/
def telegramItem (linkText : List Char) (sumCap : Nat) (i : Nat) (it : SummaryItem) : List Char :=
  "<b>".toList ++ natToChars i ++ ". ".toList ++ htmlEscape (it.title.take 100) ++
  "</b>\n\n".toList ++
  htmlEscape (it.summary.take sumCap) ++ "...\n\n".toList ++
  (if it.url ≠ [] then
    "🔗 <a href=\"".toList ++ it.url ++ "\">".toList ++ linkText ++ "</a>\n\n".toList
  else []) ++
  "─────────────\n\n".toList

/-- The per-section loop of `send_visual_telegram`: append the rendered
item only while the whole message (context so far + this section + the
item + the footer) stays under the 3500-character budget, and stop at the
first item that does not fit.  Returns the section text and how many items
were accepted. -/
def telegramSection (ctx footer : List Char) (render : Nat → SummaryItem → List Char) :
    Nat → List Char → List SummaryItem → List Char × Nat
  | _, sec, [] => (sec, 0)
  | i, sec, item :: rest =>
    let it := render i item
    if (ctx ++ sec ++ it ++ footer).length < 3500 then
      let p := telegramSection ctx footer render (i + 1) (sec ++ it) rest
      (p.1, p.2 + 1)
    else (sec, 0)

/-- The truncation indicator appended when news items are omitted
(line 1753). -/
def newsIndicator (n : Nat) : List Char :=
  "<i>... and ".toList ++ natToChars n ++ " more news items</i>\n\n".toList

/-- The Journal section heading (line 1674). -/
def journalSectionHdr : List Char := "📚 <b>ACADEMIC JOURNALS</b>\n\n".toList

/-- The Paper section heading (line 1700). -/
def paperSectionHdr : List Char := "📄 <b>RESEARCH PAPERS</b>\n\n".toList

/-- The News section heading (line 1727). -/
def newsSectionHdr : List Char := "📰 <b>INDUSTRY NEWS</b>\n\n".toList

/-- The Journal section of the telegram message (lines 1672-1696):
present only when the group is non-empty. -/
def telegramPartsJ (header : List Char) (gJ : List SummaryItem) : List Char :=
  if gJ ≠ [] then
    (telegramSection header telegramFooter (telegramItem "Read Article".toList 200) 1
      journalSectionHdr gJ).1
  else []

/-- The Paper section of the telegram message (lines 1698-1723); `ctx` is
the message plus the already-joined content parts. -/
def telegramPartsP (ctx : List Char) (gP : List SummaryItem) : List Char :=
  if gP ≠ [] then
    (telegramSection ctx telegramFooter (telegramItem "Read Paper".toList 200) 1
      paperSectionHdr gP).1
  else []

/-- The News section loop of the telegram message (lines 1726-1750):
section text and `news_count`. -/
def telegramNewsPair (ctx : List Char) (gN : List SummaryItem) : List Char × Nat :=
  telegramSection ctx telegramFooter (telegramItem "Read News".toList 150) 1
    newsSectionHdr gN

/-- The News section with its truncation indicator (lines 1726-1755). -/
def telegramPartsN (ctx : List Char) (gN : List SummaryItem) : List Char :=
  if gN ≠ [] then
    if gN.length > (telegramNewsPair ctx gN).2 then
      (telegramNewsPair ctx gN).1 ++ newsIndicator (gN.length - (telegramNewsPair ctx gN).2)
    else (telegramNewsPair ctx gN).1
  else []

/-- The full message assembly of `send_visual_telegram` (lines 1649-1759)
over already-grouped summaries: header, the three capped sections (each
present only when its group is non-empty), the news truncation indicator,
and the footer.  Returns the message and the number of news items shown. -/
def buildTelegramMessage (generatedAt hk : List Char) (gJ gP gN : List SummaryItem) :
    List Char × Nat :=
  let header := telegramHeader generatedAt hk gJ.length gP.length gN.length
  let partsJ := telegramPartsJ header gJ
  let partsP := telegramPartsP (header ++ partsJ) gP
  let partsN := telegramPartsN (header ++ partsJ ++ partsP) gN
  (header ++ partsJ ++ partsP ++ partsN ++ telegramFooter,
   (telegramNewsPair (header ++ partsJ ++ partsP) gN).2)

/-- `send_visual_telegram(summary_data, hot_keyword)`: missing or empty
bot credentials skip the send (`.ok none`); otherwise the summaries are
grouped (a `KeyError` propagates) and the assembled message is sent.
`hot_keyword=None` and an empty keyword are both falsy and modelled as
`[]`. -/
def send_visual_telegram (botToken chatId : Option (List Char)) (sd : Bundle) (hk : List Char) :
    Except Unit (Option (List Char × Nat)) :=
  if botToken.getD [] = [] ∨ chatId.getD [] = [] then .ok none
  else
    match groupsOf sd.summaries with
    | .error e => .error e
    | .ok (gJ, gP, gN) => .ok (some (buildTelegramMessage sd.generatedAt hk gJ gP gN))

/-! ### Main pipeline (`main`, lines 1837-1936) -/

/-- Observable effects of one run of `main`, with the fetch results and
the LLM outcomes passed in explicitly. -/
structure MainRun where
  collected : List SourceItem
  earlyExit : Bool
  selected : Option (List SourceItem)
  summarized : Option SummarizeResult
  savedReport : Bool
  emailSent : Bool
  telegramSent : Bool

/-- The control flow of `main` after the three fetch adapters returned
`journals`, `papers` and `news`: if the concatenation is empty the run
returns early, before selection, summarization, file save, email and
telegram; otherwise every later stage is reached. -/
def mainPipeline (journals papers news : List SourceItem) (api_key : Option (List Char))
    (selResp sumResp : LlmOutcome) (today : List Char) : MainRun :=
  let all_items := journals ++ papers ++ news
  if all_items.isEmpty then
    { collected := all_items, earlyExit := true, selected := none, summarized := none,
      savedReport := false, emailSent := false, telegramSent := false }
  else
    let selected_items := select_top_items_for_ran_engineers all_items 10 api_key selResp
    let summary := summarize_with_gemini selected_items today api_key sumResp
    { collected := all_items, earlyExit := false, selected := some selected_items,
      summarized := some summary, savedReport := true, emailSent := true, telegramSent := true }

/-! ### Concrete fixtures used by witnesses and counterexamples -/

/-- A concrete fetched record (the exact-match example of the spec). -/
def itemA : SourceItem :=
  { title := "SKT, AI 인프라 로드맵 발표".toList
    description := "테스트 설명".toList
    url := "https://news.sktelecom.com/actual-article-url-1".toList
    type := "News".toList }

/-- The summary the LLM returned for `itemA`, with a bare-domain url. -/
def summaryA : SummaryItem :=
  { title := "SKT, AI 인프라 로드맵 발표".toList
    summary := "테스트 요약 1".toList
    message := "테스트 메시지 1".toList
    url := "https://news.sktelecom.com".toList
    type := some "News".toList }

/-- A summary with a short (≤ 20 characters) title matching no source. -/
def shortSummary : SummaryItem :=
  { title := "6G brief".toList
    summary := "s".toList
    message := "m".toList
    url := "https://llm-guess.example".toList
    type := some "News".toList }

/-- A summary carrying a type outside the declared enum. -/
def badTypeSummary : SummaryItem :=
  { title := "t".toList, summary := "s".toList, message := "m".toList,
    url := "u".toList, type := some "Blog".toList }

/-- A summary with no type field at all. -/
def noTypeSummary : SummaryItem :=
  { title := "t2".toList, summary := "s2".toList, message := "m2".toList,
    url := "u2".toList, type := none }

/-- A news summary whose (uncapped) url is 3159 characters long — sized so
that after it is accepted the running telegram message is exactly one
character under the 3500 budget. -/
def c5BigNews : SummaryItem :=
  { title := [], summary := [], message := [],
    url := 'u' :: List.replicate 3158 'u', type := some "News".toList }

/-- A second small news item, which no longer fits the budget and is
omitted, triggering the truncation indicator. -/
def c5SmallNews : SummaryItem :=
  { title := [], summary := [], message := [], url := ['u'],
    type := some "News".toList }

/-! ## Theorems -/

/-- C8: if every fetch adapter returns an empty list, `main` terminates
cleanly by returning early: selection, summarization, file save, email and
telegram are never invoked, and (the model being a total function) no
exception is raised on this path. -/
theorem c8_empty_fetch_early_exit (api_key : Option (List Char))
    (selResp sumResp : LlmOutcome) (today : List Char) :
    (mainPipeline [] [] [] api_key selResp sumResp today).earlyExit = true ∧
    (mainPipeline [] [] [] api_key selResp sumResp today).selected = none ∧
    (mainPipeline [] [] [] api_key selResp sumResp today).summarized = none ∧
    (mainPipeline [] [] [] api_key selResp sumResp today).savedReport = false ∧
    (mainPipeline [] [] [] api_key selResp sumResp today).emailSent = false ∧
    (mainPipeline [] [] [] api_key selResp sumResp today).telegramSent = false := by
  simp [mainPipeline]

/-- C6: the deterministic non-AI fallback never raises (it is a total
function of its inputs): it yields exactly one summary per input item,
whose text is the description truncated to its first 300 characters (a
fixed placeholder when the description is empty), keeping the item's
title, url and type; and `summarize_with_gemini` returns exactly this
fallback whenever the sanitized LLM response fails to parse as JSON. -/
theorem c6_fallback_summary_deterministic :
    (∀ (items : List SourceItem) (today : List Char),
      ((create_summary_without_ai items today).summaries).length = items.length ∧
      (create_summary_without_ai items today).generatedAt = today) ∧
    (∀ (items : List SourceItem) (today : List Char) (i : Nat), i < items.length →
      ∃ it s, items.get? i = some it ∧
        (create_summary_without_ai items today).summaries.get? i = some s ∧
        s.title = it.title ∧
        s.summary = (if it.description = [] then "내용을 확인하세요.".toList
          else it.description.take 300) ∧
        s.url = it.url ∧ s.type = some it.type) ∧
    (∀ (items : List SourceItem) (today : List Char) (api_key : Option (List Char))
        (t : List Char),
      jsonParse (clean_json_string (extract_json_from_text t)) = none →
      summarize_with_gemini items today api_key (.withText t) =
        .fallback (create_summary_without_ai items today)) := by
  refine ⟨fun items today => ⟨by simp [create_summary_without_ai], rfl⟩, ?_, ?_⟩
  · intro items today i hi
    obtain ⟨it, hit⟩ : ∃ it, items.get? i = some it := by
      cases h : items.get? i with
      | none => exact absurd (List.get?_eq_none.mp h) (Nat.not_le.mpr hi)
      | some it => exact ⟨it, rfl⟩
    have hs : (create_summary_without_ai items today).summaries.get? i =
        some { title := it.title
               summary := if it.description ≠ [] then it.description.take 300
                 else "내용을 확인하세요.".toList
               message := "6G 기술 발전의 최신 동향을 보여주는 ".toList ++ it.type ++
                 " 자료입니다.".toList
               url := it.url
               type := some it.type } := by
      have hit' : items[i]? = some it := by rw [← List.get?_eq_getElem?]; exact hit
      rw [List.get?_eq_getElem?]
      simp only [create_summary_without_ai, List.getElem?_map, hit', Option.map_some']
    refine ⟨it, _, hit, hs, rfl, ?_, rfl, rfl⟩
    by_cases h : it.description = [] <;> simp [h]
  · intro items today api_key t h
    cases api_key with
    | none => rfl
    | some k =>
      simp only [summarize_with_gemini, summarizeProcessText]
      rw [h]

/-- C7: every failure of the selector — missing `GEMINI_API_KEY`, a raised
exception, a response without content, a JSON parse error, a response that
is not a JSON list, or fewer than `top_n` valid in-range integer indices —
yields the first `top_n` input items instead of propagating the failure. -/
theorem c7_selector_falls_back_to_first_n :
    (∀ (items : List SourceItem) (n : Nat) (resp : LlmOutcome),
      select_top_items_for_ran_engineers items n none resp = items.take n) ∧
    (∀ (items : List SourceItem) (n : Nat) (k : List Char),
      select_top_items_for_ran_engineers items n (some k) .exn = items.take n) ∧
    (∀ (items : List SourceItem) (n : Nat) (k : List Char),
      select_top_items_for_ran_engineers items n (some k) .noContent = items.take n) ∧
    (∀ (items : List SourceItem) (n : Nat) (k t : List Char),
      jsonParse (clean_json_string (extract_json_from_text (pyStrip t))) = none →
      select_top_items_for_ran_engineers items n (some k) (.withText t) = items.take n) ∧
    (∀ (items : List SourceItem) (n : Nat) (k t : List Char) (j : Json),
      jsonParse (clean_json_string (extract_json_from_text (pyStrip t))) = some j →
      (∀ xs, j ≠ Json.jarr xs) →
      select_top_items_for_ran_engineers items n (some k) (.withText t) = items.take n) ∧
    (∀ (items : List SourceItem) (n : Nat) (k t : List Char) (xs : List Json),
      jsonParse (clean_json_string (extract_json_from_text (pyStrip t))) = some (Json.jarr xs) →
      (validSelections items xs).length < n →
      select_top_items_for_ran_engineers items n (some k) (.withText t) = items.take n) := by
  refine ⟨fun _ _ _ => rfl, fun _ _ _ => rfl, fun _ _ _ => rfl, ?_, ?_, ?_⟩
  · intro items n k t h
    simp only [select_top_items_for_ran_engineers]
    rw [h]
  · intro items n k t j h hj
    simp only [select_top_items_for_ran_engineers]
    rw [h]
    cases j with
    | jarr xs => exact absurd rfl (hj xs)
    | null => rfl
    | jbool b => rfl
    | jint m => rfl
    | jfloat tok => rfl
    | jstr s => rfl
    | jobj kvs => rfl
  · intro items n k t xs h hlt
    simp only [select_top_items_for_ran_engineers]
    rw [h]
    simp only [ge_iff_le]
    rw [if_neg (by omega)]

/-- Witness for C6 at concrete inputs: one item, and a response text that
is not JSON. -/
theorem c6_fallback_summary_deterministic_witness :
    (∃ it s, [itemA].get? 0 = some it ∧
      (create_summary_without_ai [itemA] "2025-10-12".toList).summaries.get? 0 = some s ∧
      s.title = it.title ∧
      s.summary = (if it.description = [] then "내용을 확인하세요.".toList
        else it.description.take 300) ∧
      s.url = it.url ∧ s.type = some it.type) ∧
    summarize_with_gemini [itemA] "2025-10-12".toList (some "k".toList)
        (.withText "no json".toList) =
      .fallback (create_summary_without_ai [itemA] "2025-10-12".toList) :=
  ⟨c6_fallback_summary_deterministic.2.1 [itemA] "2025-10-12".toList 0 (by decide),
   c6_fallback_summary_deterministic.2.2 [itemA] "2025-10-12".toList (some "k".toList)
     "no json".toList (by rfl)⟩

/-- Witness for C7 at concrete inputs, one per failure mode with a
hypothesis: parse failure, non-list response, and too few valid indices. -/
theorem c7_selector_falls_back_to_first_n_witness :
    select_top_items_for_ran_engineers [itemA] 3 (some "k".toList)
      (.withText "not json".toList) = [itemA].take 3 ∧
    select_top_items_for_ran_engineers [itemA] 3 (some "k".toList)
      (.withText "\x7b\"a\": 1\x7d".toList) = [itemA].take 3 ∧
    select_top_items_for_ran_engineers [itemA] 3 (some "k".toList)
      (.withText "[1, 2]".toList) = [itemA].take 3 :=
  ⟨c7_selector_falls_back_to_first_n.2.2.2.1 [itemA] 3 "k".toList "not json".toList (by rfl),
   c7_selector_falls_back_to_first_n.2.2.2.2.1 [itemA] 3 "k".toList "\x7b\"a\": 1\x7d".toList
     (Json.jobj [("a".toList, Json.jint 1)]) (by rfl)
     (fun xs h => Json.noConfusion h),
   c7_selector_falls_back_to_first_n.2.2.2.2.2 [itemA] 3 "k".toList "[1, 2]".toList
     [Json.jint 1, Json.jint 2] (by rfl) (by decide)⟩

/-- The reconciler only ever touches the `url` field of a summary. -/
theorem reconcile_preserves_other_fields (m : List (List Char × List Char)) (s : SummaryItem) :
    (reconcileSummary m s).title = s.title ∧ (reconcileSummary m s).summary = s.summary ∧
    (reconcileSummary m s).message = s.message ∧ (reconcileSummary m s).type = s.type := by
  unfold reconcileSummary
  dsimp only
  split
  · exact ⟨rfl, rfl, rfl, rfl⟩
  · split
    · exact ⟨rfl, rfl, rfl, rfl⟩
    · exact ⟨rfl, rfl, rfl, rfl⟩

/-- C9: the reconciler modifies at most the `url` field — after
`_preserve_original_urls` every summary keeps its title, summary, message
and type, the summary count is unchanged, and the original item list is
completely unmodified. -/
theorem c9_reconciler_frame (summaries : List SummaryItem) (items : List SourceItem) :
    ((preserveOriginalUrls summaries items).1).map
        (fun s => (s.title, s.summary, s.message, s.type)) =
      summaries.map (fun s => (s.title, s.summary, s.message, s.type)) ∧
    (preserveOriginalUrls summaries items).2 = items ∧
    ((preserveOriginalUrls summaries items).1).length = summaries.length := by
  refine ⟨?_, rfl, by simp [preserveOriginalUrls]⟩
  unfold preserveOriginalUrls
  induction summaries with
  | nil => rfl
  | cons s rest ih =>
    obtain ⟨h1, h2, h3, h4⟩ :=
      reconcile_preserves_other_fields (buildOriginalMap items) s
    simp only [List.map_cons] at ih ⊢
    rw [h1, h2, h3, h4]
    exact congrArg _ ih

/-- `dict[k'] = v` insertion seen through a later lookup. -/
theorem dictLookup_dictInsert (k k' v : List Char) (m : List (List Char × List Char)) :
    dictLookup k (dictInsert k' v m) = if k' = k then some v else dictLookup k m := by
  induction m with
  | nil =>
    by_cases h : k' = k <;> simp [dictInsert, dictLookup, h]
  | cons kv rest ih =>
    obtain ⟨k2, v2⟩ := kv
    by_cases h2 : k2 = k'
    · subst h2
      by_cases hk : k2 = k <;> simp [dictInsert, dictLookup, hk]
    · by_cases hk : k2 = k
      · subst hk
        have hne : ¬ k' = k2 := fun h => h2 h.symm
        simp [dictInsert, dictLookup, h2, hne]
      · simp [dictInsert, dictLookup, h2, hk, ih]

/-- A successful lookup in the reconciler's `original_map` comes from some
original item with that normalized title. -/
theorem buildMap_lookup_mem (items : List SourceItem) :
    ∀ (acc : List (List Char × List Char)) (k v : List Char),
      dictLookup k (items.foldl (fun m it => dictInsert (normTitle it.title) it.url m) acc) =
        some v →
      (∃ it ∈ items, normTitle it.title = k ∧ it.url = v) ∨ dictLookup k acc = some v := by
  induction items with
  | nil => intro acc k v h; exact Or.inr h
  | cons it rest ih =>
    intro acc k v h
    simp only [List.foldl_cons] at h
    rcases ih _ _ _ h with hl | hacc
    · obtain ⟨it', hmem, hn, hu⟩ := hl
      exact Or.inl ⟨it', List.mem_cons_of_mem _ hmem, hn, hu⟩
    · rw [dictLookup_dictInsert] at hacc
      by_cases hk : normTitle it.title = k
      · rw [if_pos hk] at hacc
        exact Or.inl ⟨it, List.mem_cons_self _ _, hk, Option.some.inj hacc⟩
      · rw [if_neg hk] at hacc
        exact Or.inr hacc

/-- If some original item carries the looked-up normalized title, the
lookup in the reconciler's `original_map` succeeds. -/
theorem buildMap_lookup_isSome (items : List SourceItem) :
    ∀ (acc : List (List Char × List Char)) (k : List Char),
      ((∃ it ∈ items, normTitle it.title = k) ∨ (dictLookup k acc).isSome) →
      (dictLookup k (items.foldl (fun m it => dictInsert (normTitle it.title) it.url m) acc)).isSome := by
  induction items with
  | nil =>
    intro acc k h
    rcases h with ⟨it, hmem, _⟩ | h
    · exact absurd hmem (List.not_mem_nil it)
    · exact h
  | cons it rest ih =>
    intro acc k h
    simp only [List.foldl_cons]
    apply ih
    rcases h with ⟨it', hmem, hn⟩ | hsome
    · rcases List.mem_cons.mp hmem with heq | hmem'
      · subst heq
        right
        rw [dictLookup_dictInsert, if_pos hn]
        rfl
      · exact Or.inl ⟨it', hmem', hn⟩
    · right
      rw [dictLookup_dictInsert]
      by_cases hk : normTitle it.title = k
      · rw [if_pos hk]; rfl
      · rw [if_neg hk]; exact hsome

/-- C1: whenever a summary's normalized (lowercased, trimmed) title
exactly equals the normalized title of some source item, the reconciler
rewrites that summary's url to an original url recorded for exactly that
normalized title — regardless of the url the LLM returned.  (With
duplicate titles the map keeps the last duplicate's url, itself an
original url of a matching item, which the existential accounts for.) -/
theorem c1_exact_title_match_restores_url :
    (∀ (summaries : List SummaryItem) (items : List SourceItem),
      (preserveOriginalUrls summaries items).1 =
        summaries.map (reconcileSummary (buildOriginalMap items))) ∧
    (∀ (items : List SourceItem) (s : SummaryItem),
      (∃ it ∈ items, normTitle it.title = normTitle s.title) →
      ∃ it ∈ items, normTitle it.title = normTitle s.title ∧
        (reconcileSummary (buildOriginalMap items) s).url = it.url) := by
  refine ⟨fun _ _ => rfl, ?_⟩
  intro items s hex
  have hsome : (dictLookup (normTitle s.title) (buildOriginalMap items)).isSome :=
    buildMap_lookup_isSome items [] _ (Or.inl hex)
  obtain ⟨u, hu⟩ := Option.isSome_iff_exists.mp hsome
  rcases buildMap_lookup_mem items [] _ u hu with ⟨it, hmem, hn, hurl⟩ | habs
  · refine ⟨it, hmem, hn, ?_⟩
    unfold reconcileSummary
    dsimp only
    rw [hu]
    exact hurl.symm
  · simp [dictLookup] at habs

/-- Witness for C1: the spec's example — the LLM returns the exact title
with a bare-domain url, and the reconciler restores the original url. -/
theorem c1_exact_title_match_restores_url_witness :
    (∃ it ∈ [itemA], normTitle it.title = normTitle summaryA.title) ∧
    ∃ it ∈ [itemA], normTitle it.title = normTitle summaryA.title ∧
      (reconcileSummary (buildOriginalMap [itemA]) summaryA).url = it.url :=
  ⟨by decide, c1_exact_title_match_restores_url.2 [itemA] summaryA (by decide)⟩

/-- C4: a summary whose normalized title is at most 20 characters long and
matches no normalized source title exactly is left completely unchanged by
the reconciler — in particular its url stays as the LLM returned it, never
overwritten by a substring-containment guess. -/
theorem c4_short_title_never_overwritten :
    (∀ (summaries : List SummaryItem) (items : List SourceItem),
      (preserveOriginalUrls summaries items).1 =
        summaries.map (reconcileSummary (buildOriginalMap items))) ∧
    (∀ (items : List SourceItem) (s : SummaryItem),
      (normTitle s.title).length ≤ 20 →
      (∀ it ∈ items, normTitle it.title ≠ normTitle s.title) →
      reconcileSummary (buildOriginalMap items) s = s) := by
  refine ⟨fun _ _ => rfl, ?_⟩
  intro items s hlen hne
  have hnone : dictLookup (normTitle s.title) (buildOriginalMap items) = none := by
    cases hl : dictLookup (normTitle s.title) (buildOriginalMap items) with
    | none => rfl
    | some u =>
      rcases buildMap_lookup_mem items [] _ u hl with ⟨it, hmem, hn, _⟩ | habs
      · exact absurd hn (hne it hmem)
      · simp [dictLookup] at habs
  have hfind : (buildOriginalMap items).find? (fun kv =>
      (containsSub (normTitle s.title) kv.1 || containsSub kv.1 (normTitle s.title)) &&
      decide ((normTitle s.title).length > 20)) = none := by
    apply List.find?_eq_none.mpr
    intro kv _
    have : decide ((normTitle s.title).length > 20) = false := by
      simp only [decide_eq_false_iff_not]
      omega
    simp [this]
  unfold reconcileSummary
  dsimp only
  rw [hnone, hfind]

/-- Witness for C4: a short-titled summary with no exact match keeps the
LLM's url. -/
theorem c4_short_title_never_overwritten_witness :
    (normTitle shortSummary.title).length ≤ 20 ∧
    reconcileSummary (buildOriginalMap [itemA]) shortSummary = shortSummary :=
  ⟨by decide,
   c4_short_title_never_overwritten.2 [itemA] shortSummary (by decide) (by decide)⟩

/-- An item with a type outside the declared enum makes the grouping loop
raise `KeyError`, whatever was already accumulated. -/
theorem groupsAux_error_of_bad (l : List SummaryItem) :
    ∀ (acc : List SummaryItem × List SummaryItem × List SummaryItem)
      (it : SummaryItem) (t : List Char), it ∈ l → it.type = some t →
      t ≠ "Journal".toList → t ≠ "Paper".toList → t ≠ "News".toList →
      groupsAux acc l = .error () := by
  induction l with
  | nil => intro acc it t h _ _ _ _; exact absurd h (List.not_mem_nil it)
  | cons a rest ih =>
    intro acc it t hmem ht h1 h2 h3
    rcases List.mem_cons.mp hmem with heq | hmem'
    · subst heq
      have hg : it.type.getD "News".toList = t := by rw [ht]; rfl
      simp only [groupsAux, hg]
      rw [if_neg h1, if_neg h2, if_neg h3]
    · simp only [groupsAux]
      by_cases c1 : a.type.getD "News".toList = "Journal".toList
      · rw [if_pos c1]; exact ih _ it t hmem' ht h1 h2 h3
      · rw [if_neg c1]
        by_cases c2 : a.type.getD "News".toList = "Paper".toList
        · rw [if_pos c2]; exact ih _ it t hmem' ht h1 h2 h3
        · rw [if_neg c2]
          by_cases c3 : a.type.getD "News".toList = "News".toList
          · rw [if_pos c3]; exact ih _ it t hmem' ht h1 h2 h3
          · rw [if_neg c3]

/-- When every item's (defaulted) type is in the declared enum, the
grouping loop succeeds and distributes the items over the three sections
in order. -/
theorem groupsAux_ok_of_known (l : List SummaryItem) :
    ∀ (acc : List SummaryItem × List SummaryItem × List SummaryItem),
      (∀ it ∈ l, it.type.getD "News".toList = "Journal".toList ∨
        it.type.getD "News".toList = "Paper".toList ∨
        it.type.getD "News".toList = "News".toList) →
      groupsAux acc l = .ok
        (acc.1 ++ l.filter (fun it => decide (it.type.getD "News".toList = "Journal".toList)),
         acc.2.1 ++ l.filter (fun it => decide (it.type.getD "News".toList = "Paper".toList)),
         acc.2.2 ++ l.filter (fun it => decide (it.type.getD "News".toList = "News".toList))) := by
  induction l with
  | nil => intro acc _; simp [groupsAux]
  | cons a rest ih =>
    intro acc h
    have hrest : ∀ it ∈ rest, it.type.getD "News".toList = "Journal".toList ∨
        it.type.getD "News".toList = "Paper".toList ∨
        it.type.getD "News".toList = "News".toList :=
      fun it hm => h it (List.mem_cons_of_mem _ hm)
    have hJP : ("Journal".toList : List Char) ≠ "Paper".toList := by decide
    have hJN : ("Journal".toList : List Char) ≠ "News".toList := by decide
    have hPN : ("Paper".toList : List Char) ≠ "News".toList := by decide
    rcases h a (List.mem_cons_self _ _) with c | c | c
    · simp only [groupsAux]
      rw [if_pos c, ih _ hrest]
      simp only [List.filter_cons, decide_eq_true_eq]
      rw [if_pos c, if_neg (fun h => hJP (c.symm.trans h)),
        if_neg (fun h => hJN (c.symm.trans h))]
      simp [List.append_assoc]
    · simp only [groupsAux]
      rw [if_neg (fun h => hJP (h.symm.trans c)), if_pos c, ih _ hrest]
      simp only [List.filter_cons, decide_eq_true_eq]
      rw [if_neg (fun h => hJP (h.symm.trans c)), if_pos c,
        if_neg (fun h => hPN (c.symm.trans h))]
      simp [List.append_assoc]
    · simp only [groupsAux]
      rw [if_neg (fun h => hJN (h.symm.trans c)), if_neg (fun h => hPN (h.symm.trans c)),
        if_pos c, ih _ hrest]
      simp only [List.filter_cons, decide_eq_true_eq]
      rw [if_neg (fun h => hJN (h.symm.trans c)), if_neg (fun h => hPN (h.symm.trans c)),
        if_pos c]
      simp [List.append_assoc]

/-- C10: the publishers' type grouping is total only on the declared enum:
a summary whose `type` is present but none of `Journal`/`Paper`/`News`
makes `create_html_email`, `create_email_safe_html` and
`send_visual_telegram` raise `KeyError`, while a summary with no type at
all is grouped under `News` and raises nothing. -/
theorem c10_type_grouping_total_only_on_enum :
    (∀ (sd : Bundle) (it : SummaryItem) (t : List Char), it ∈ sd.summaries →
      it.type = some t →
      t ≠ "Journal".toList → t ≠ "Paper".toList → t ≠ "News".toList →
      create_html_email sd = .error () ∧
      create_email_safe_html sd = .error () ∧
      ∀ (bt ct hk : List Char), bt ≠ [] → ct ≠ [] →
        send_visual_telegram (some bt) (some ct) sd hk = .error ()) ∧
    (∀ sd : Bundle,
      (∀ it ∈ sd.summaries, it.type = none ∨ it.type = some "Journal".toList ∨
        it.type = some "Paper".toList ∨ it.type = some "News".toList) →
      ∃ gJ gP gN, create_html_email sd = .ok (gJ, gP, gN) ∧
        ∀ it ∈ sd.summaries, it.type = none → it ∈ gN) := by
  constructor
  · intro sd it t hmem ht h1 h2 h3
    have herr : groupsOf sd.summaries = .error () :=
      groupsAux_error_of_bad sd.summaries ([], [], []) it t hmem ht h1 h2 h3
    refine ⟨herr, herr, ?_⟩
    intro bt ct hk hbt hct
    have hcond : ¬ ((some bt).getD [] = ([] : List Char) ∨ (some ct).getD [] = ([] : List Char)) := by
      simp [Option.getD, hbt, hct]
    simp only [send_visual_telegram]
    rw [if_neg hcond, herr]
  · intro sd h
    have hknown : ∀ it ∈ sd.summaries, it.type.getD "News".toList = "Journal".toList ∨
        it.type.getD "News".toList = "Paper".toList ∨
        it.type.getD "News".toList = "News".toList := by
      intro it hm
      rcases h it hm with h0 | h0 | h0 | h0 <;> rw [h0] <;> simp
    refine ⟨sd.summaries.filter (fun it => decide (it.type.getD "News".toList = "Journal".toList)),
      sd.summaries.filter (fun it => decide (it.type.getD "News".toList = "Paper".toList)),
      sd.summaries.filter (fun it => decide (it.type.getD "News".toList = "News".toList)),
      ?_, ?_⟩
    · have := groupsAux_ok_of_known sd.summaries ([], [], []) hknown
      simpa [create_html_email, groupsOf] using this
    · intro it hm hnone
      refine List.mem_filter.mpr ⟨hm, ?_⟩
      rw [hnone]
      decide

/-- Witness for C10: a bundle with a `Blog`-typed summary makes all three
publishers raise; a bundle whose only summary lacks the type field is
grouped (under News) without raising. -/
theorem c10_type_grouping_total_only_on_enum_witness :
    (create_html_email ⟨[badTypeSummary], "d".toList⟩ = .error () ∧
     create_email_safe_html ⟨[badTypeSummary], "d".toList⟩ = .error () ∧
     ∀ (bt ct hk : List Char), bt ≠ [] → ct ≠ [] →
       send_visual_telegram (some bt) (some ct) ⟨[badTypeSummary], "d".toList⟩ hk = .error ()) ∧
    (∃ gJ gP gN, create_html_email ⟨[noTypeSummary], "d".toList⟩ = .ok (gJ, gP, gN) ∧
      ∀ it ∈ [noTypeSummary], it.type = none → it ∈ gN) :=
  ⟨c10_type_grouping_total_only_on_enum.1 ⟨[badTypeSummary], "d".toList⟩ badTypeSummary
     "Blog".toList (by decide) rfl (by decide) (by decide) (by decide),
   c10_type_grouping_total_only_on_enum.2 ⟨[noTypeSummary], "d".toList⟩ (by decide)⟩

/-- `protectPairs` on a list that does not begin with an escaped pair. -/
theorem protectPairs_cons₂ (c c2 : Char) (t : List Char) (h : ¬ (c = '\\' ∧ c2 = '\\')) :
    protectPairs (c :: c2 :: t) = c :: protectPairs (c2 :: t) := by
  rw [protectPairs.eq_def]
  split
  · rename_i t' heq
    injection heq with h1 heq'
    injection heq' with h2 _
    exact absurd ⟨h1, h2⟩ h
  · rename_i c' t' heq
    injection heq with h1 h2
    rw [h1, h2]
  · rename_i heq
    exact absurd heq (by simp)

/-- `protectPairs` on a one-element list. -/
theorem protectPairs_singleton (c : Char) : protectPairs [c] = [c] := by
  rw [protectPairs.eq_def]
  split
  · simp_all
  · simp_all
    rfl
  · simp_all

/-- `keepEscapedPairs` drops a lone backslash not starting a pair. -/
theorem keepEscapedPairs_bs_cons (c2 : Char) (t : List Char) (h : ¬ c2 = '\\') :
    keepEscapedPairs ('\\' :: c2 :: t) = keepEscapedPairs (c2 :: t) := by
  rw [keepEscapedPairs.eq_def]
  split
  · simp_all
  · simp_all
  · rename_i hne heq
    injection heq with h1 _
    exact absurd h1.symm hne
  · simp_all

/-- `keepEscapedPairs` on a lone trailing backslash. -/
theorem keepEscapedPairs_bs_nil : keepEscapedPairs ['\\'] = [] := by
  rw [keepEscapedPairs.eq_def]
  split
  · simp_all
  · simp_all
    rfl
  · rename_i hne heq
    injection heq with h1 _
    exact absurd h1.symm hne
  · simp_all

/-- `keepEscapedPairs` keeps a non-backslash head. -/
theorem keepEscapedPairs_cons (c : Char) (t : List Char) (h : ¬ c = '\\') :
    keepEscapedPairs (c :: t) = c :: keepEscapedPairs t := by
  rw [keepEscapedPairs.eq_def]
  split
  · simp_all
  · simp_all
  · simp_all
  · simp_all

/-- The first `str.replace` of `clean_json_string`, characterised: with
enough fuel it is exactly `protectPairs`. -/
theorem pyReplaceF_protect : ∀ (f : Nat) (l : List Char), l.length ≤ f →
    pyReplaceF ['\\', '\\'] [nulChar] f l = protectPairs l := by
  intro f
  induction f with
  | zero =>
    intro l h
    have : l = [] := List.length_eq_zero.mp (Nat.le_zero.mp h)
    subst this; rfl
  | succ f ih =>
    intro l h
    cases l with
    | nil => rfl
    | cons c cs =>
      by_cases hp : (['\\', '\\'].isPrefixOf (c :: cs)) = true
      · have hb : ('\\' == c && ['\\'].isPrefixOf cs) = true := hp
        rw [Bool.and_eq_true, beq_iff_eq] at hb
        obtain ⟨hc, hcs⟩ := hb
        cases cs with
        | nil => exact absurd hcs (by decide)
        | cons c2 t =>
          have hb2 : ('\\' == c2 && List.isPrefixOf [] t) = true := hcs
          rw [Bool.and_eq_true, beq_iff_eq] at hb2
          obtain ⟨hc2, -⟩ := hb2
          subst hc; subst hc2
          rw [pyReplaceF, if_pos ⟨by simp, hp⟩]
          simp only [List.length_cons] at h
          simp only [List.length_cons, List.length_nil, List.drop_succ_cons, List.drop_zero]
          rw [ih t (by omega)]
          rfl
      · rw [pyReplaceF, if_neg (fun hand => hp hand.2)]
        simp only [List.length_cons] at h
        rw [ih cs (by omega)]
        cases cs with
        | nil => rw [protectPairs_singleton]; rfl
        | cons c2 t =>
          have hne : ¬ (c = '\\' ∧ c2 = '\\') := by
            intro ⟨h1, h2⟩
            subst h1; subst h2
            exact hp (by simp [List.isPrefixOf])
          rw [protectPairs_cons₂ c c2 t hne]

/-- The second `str.replace` of `clean_json_string`, characterised: with
enough fuel it deletes exactly the backslashes. -/
theorem pyReplaceF_dropBackslash : ∀ (f : Nat) (l : List Char), l.length ≤ f →
    pyReplaceF ['\\'] [] f l = l.filter (fun c => decide (c ≠ '\\')) := by
  intro f
  induction f with
  | zero =>
    intro l h
    have : l = [] := List.length_eq_zero.mp (Nat.le_zero.mp h)
    subst this; rfl
  | succ f ih =>
    intro l h
    cases l with
    | nil => rfl
    | cons c cs =>
      simp only [List.length_cons] at h
      by_cases hc : c = '\\'
      · subst hc
        rw [pyReplaceF, if_pos ⟨by simp, by simp [List.isPrefixOf]⟩]
        rw [List.filter_cons_of_neg (by simp)]
        simpa using ih cs (by omega)
      · have hp : ¬ (['\\'].isPrefixOf (c :: cs)) = true := by
          intro hp'
          have hb : ('\\' == c && List.isPrefixOf [] cs) = true := hp'
          rw [Bool.and_eq_true, beq_iff_eq] at hb
          exact hc hb.1.symm
        rw [pyReplaceF, if_neg (fun hand => hp hand.2)]
        rw [List.filter_cons_of_pos (by simpa using hc)]
        rw [ih cs (by omega)]

/-- The third `str.replace` of `clean_json_string`, characterised: with
enough fuel it is exactly `restoreNul`. -/
theorem pyReplaceF_restore : ∀ (f : Nat) (l : List Char), l.length ≤ f →
    pyReplaceF [nulChar] ['\\', '\\'] f l = restoreNul l := by
  intro f
  induction f with
  | zero =>
    intro l h
    have : l = [] := List.length_eq_zero.mp (Nat.le_zero.mp h)
    subst this; rfl
  | succ f ih =>
    intro l h
    cases l with
    | nil => rfl
    | cons c cs =>
      simp only [List.length_cons] at h
      by_cases hc : c = nulChar
      · subst hc
        rw [pyReplaceF, if_pos ⟨by simp, by simp [List.isPrefixOf]⟩]
        rw [restoreNul, if_pos rfl]
        simpa using ih cs (by omega)
      · have hp : ¬ (([nulChar].isPrefixOf (c :: cs)) = true) := by
          intro hp'
          have hb : (nulChar == c && List.isPrefixOf [] cs) = true := hp'
          rw [Bool.and_eq_true, beq_iff_eq] at hb
          exact hc hb.1.symm
        rw [pyReplaceF, if_neg (fun hand => hp hand.2)]
        rw [restoreNul, if_neg hc]
        rw [ih cs (by omega)]

/-- The three passes of `clean_json_string` compose to
`keepEscapedPairs` on NUL-free input. -/
theorem restore_filter_protect : ∀ (l : List Char), nulChar ∉ l →
    restoreNul ((protectPairs l).filter (fun c => decide (c ≠ '\\'))) = keepEscapedPairs l := by
  intro l
  induction l using keepEscapedPairs.induct with
  | case1 t ih =>
    intro h
    have h' : nulChar ∉ t := fun hm => h (by simp [hm])
    show restoreNul ((nulChar :: protectPairs t).filter (fun c => decide (c ≠ '\\'))) = _
    rw [List.filter_cons_of_pos (by decide)]
    rw [restoreNul, if_pos rfl]
    rw [ih h']
    rfl
  | case2 t hguard ih =>
    intro h
    cases t with
    | nil =>
      rw [protectPairs_singleton, keepEscapedPairs_bs_nil]
      rfl
    | cons c2 t2 =>
      have h' : nulChar ∉ c2 :: t2 := fun hm => h (List.mem_cons_of_mem _ hm)
      have hc2 : ¬ c2 = '\\' := fun he => hguard t2 (by rw [he])
      rw [protectPairs_cons₂ '\\' c2 t2 (fun hand => hc2 hand.2)]
      rw [List.filter_cons_of_neg (by simp)]
      rw [keepEscapedPairs_bs_cons c2 t2 hc2]
      exact ih h'
  | case3 c t hguard hc ih =>
    intro h
    have h' : nulChar ∉ t := fun hm => h (List.mem_cons_of_mem _ hm)
    have hcnul : ¬ c = nulChar := fun he => h (he ▸ List.mem_cons_self _ _)
    have hcbs : ¬ c = '\\' := fun he => hc he
    have e1 : protectPairs (c :: t) = c :: protectPairs t := by
      cases t with
      | nil => exact protectPairs_singleton c
      | cons c2 t2 => exact protectPairs_cons₂ c c2 t2 (fun hand => hcbs hand.1)
    rw [e1, List.filter_cons_of_pos (by simpa using hcbs)]
    rw [restoreNul, if_neg hcnul]
    rw [keepEscapedPairs_cons c t hcbs]
    rw [ih h']
  | case4 =>
    intro _
    rfl

/-- C2 (amended): on NUL-free input (valid JSON never contains a raw NUL)
`clean_json_string` keeps every escaped-backslash pair (`\\`) exactly and
deletes every remaining lone backslash, leaving all other characters
untouched.  In particular model-introduced stray backslashes before
ordinary characters are removed — but the backslash of a correctly escaped
quote (`\"`) is removed too, so such escapes do not survive (see the
counterexample). -/
theorem c2_sanitizer_keeps_pairs_deletes_lone_backslashes (l : List Char)
    (h : nulChar ∉ l) :
    clean_json_string l = keepEscapedPairs l := by
  show pyReplace [nulChar] ['\\', '\\'] (pyReplace ['\\'] [] (pyReplace ['\\', '\\'] [nulChar] l)) = _
  unfold pyReplace
  rw [pyReplaceF_protect l.length l (Nat.le_refl _)]
  rw [pyReplaceF_dropBackslash _ _ (Nat.le_refl _)]
  rw [pyReplaceF_restore _ _ (Nat.le_refl _)]
  exact restore_filter_protect l h

/-- C2 counterexample: `{"a":"x \" y"}` is valid JSON whose only escape is
a correctly escaped quote, yet `clean_json_string` deletes that backslash
and the sanitized text no longer parses as JSON. -/
theorem c2_counterexample_escaped_quote_corrupted :
    jsonValid "\x7b\"a\":\"x \\\" y\"\x7d".toList = true ∧
    clean_json_string "\x7b\"a\":\"x \\\" y\"\x7d".toList = "\x7b\"a\":\"x \" y\"\x7d".toList ∧
    jsonValid (clean_json_string "\x7b\"a\":\"x \\\" y\"\x7d".toList) = false :=
  ⟨rfl, rfl, rfl⟩

/-- Witness for the amended C2 at a concrete input with one escaped pair
and one stray backslash. -/
theorem c2_sanitizer_keeps_pairs_deletes_lone_backslashes_witness :
    (nulChar ∉ "a\\\\b\\c".toList) ∧
    clean_json_string "a\\\\b\\c".toList = keepEscapedPairs "a\\\\b\\c".toList :=
  ⟨by decide, c2_sanitizer_keeps_pairs_deletes_lone_backslashes _ (by decide)⟩

/-- `fenceSubF` (any fuel) does nothing on an empty list. -/
theorem fenceSubF_nil (f : Nat) : fenceSubF f [] = [] := by
  cases f <;> rfl

/-- `pyReplaceF` (any fuel) does nothing on an empty list. -/
theorem pyReplaceF_nil (old new : List Char) (f : Nat) : pyReplaceF old new f [] = [] := by
  cases f <;> rfl

/-- Losing the head cannot create a triple backtick. -/
theorem hasTripleTick_cons_false {c : Char} {t : List Char}
    (h : hasTripleTick (c :: t) = false) : hasTripleTick t = false := by
  rw [hasTripleTick.eq_def] at h
  split at h
  · exact absurd h (by simp)
  · rename_i heq
    injection heq with _ h2
    rw [h2]
    exact h
  · rename_i heq
    exact absurd heq (by simp)

/-- Scanning a backtick-triple-free text followed by the closing fence
`\n```` ``` ````, the fence substitution removes exactly the closing
fence. -/
theorem fenceSubF_no_tick : ∀ (f : Nat) (l : List Char),
    l.length + 4 ≤ f → hasTripleTick l = false →
    fenceSubF f (l ++ ['\n', '`', '`', '`']) = l ++ ['\n'] := by
  intro f
  induction f with
  | zero => intro l h _; omega
  | succ f ih =>
    intro l h ht
    cases l with
    | nil =>
      simp only [List.length_nil] at h
      show fenceSubF (f + 1) ('\n' :: ['`', '`', '`']) = ['\n']
      rw [fenceSubF, if_neg (fun hand => absurd hand.1 (by decide))]
      have htail : fenceSubF f ['`', '`', '`'] = [] := by
        cases f with
        | zero => omega
        | succ f2 =>
          rw [fenceSubF, if_pos ⟨rfl, by decide⟩]
          rw [show (dropFenceKeyword (List.drop 2 (['`', '`'] : List Char))).dropWhile isPySpace =
            ([] : List Char) from rfl]
          exact fenceSubF_nil f2
      rw [htail]
    | cons c t =>
      have hcond : ¬ (c = '`' ∧ (List.isPrefixOf ['`', '`'] (t ++ ['\n', '`', '`', '`'])) = true) := by
        rintro ⟨hc, hpre⟩
        subst hc
        cases t with
        | nil => exact absurd hpre (by decide)
        | cons t0 t1 =>
          have hb : ('`' == t0 && List.isPrefixOf ['`'] (t1 ++ ['\n', '`', '`', '`'])) = true := hpre
          rw [Bool.and_eq_true, beq_iff_eq] at hb
          obtain ⟨h0, hpre1⟩ := hb
          subst h0
          cases t1 with
          | nil => exact absurd hpre1 (by decide)
          | cons t1h t2 =>
            have hb1 : ('`' == t1h && List.isPrefixOf [] (t2 ++ ['\n', '`', '`', '`'])) = true := hpre1
            rw [Bool.and_eq_true, beq_iff_eq] at hb1
            obtain ⟨h1, -⟩ := hb1
            subst h1
            exact absurd ht (by simp [hasTripleTick])
      rw [List.cons_append, fenceSubF, if_neg hcond]
      simp only [List.length_cons] at h
      rw [ih t (by omega) (hasTripleTick_cons_false ht)]
      rfl

/-- The fence substitution on a fenced bracketed payload: the opening
```` ```json ```` and its following newline are removed, and the closing
fence is removed, leaving the payload plus the trailing newline. -/
theorem fenceSub_fenceWrap (M : List Char)
    (h3 : hasTripleTick ('[' :: M ++ [']']) = false) :
    fenceSub (fenceWrap ('[' :: M ++ [']'])) = ('[' :: M ++ [']']) ++ ['\n'] := by
  have hw : fenceWrap ('[' :: M ++ [']']) =
      '`' :: ('`' :: '`' :: 'j' :: 's' :: 'o' :: 'n' :: '\n' ::
        (('[' :: M ++ [']']) ++ ['\n', '`', '`', '`'])) := by
    show ('`' :: '`' :: '`' :: "json\n".toList) ++ ('[' :: M ++ [']']) ++
      ('\n' :: '`' :: '`' :: ['`']) = _
    simp
  show fenceSubF (fenceWrap ('[' :: M ++ [']'])).length (fenceWrap ('[' :: M ++ [']'])) = _
  rw [hw]
  rw [List.length_cons]
  rw [fenceSubF, if_pos ⟨rfl, by simp [List.isPrefixOf]⟩]
  have hd : (dropFenceKeyword ((('`' :: '`' :: 'j' :: 's' :: 'o' :: 'n' :: '\n' ::
      (('[' :: M ++ [']']) ++ ['\n', '`', '`', '`']))).drop 2)).dropWhile isPySpace =
      ('[' :: M ++ [']']) ++ ['\n', '`', '`', '`'] := by
    show List.dropWhile isPySpace ('\n' ::
      (('[' :: M ++ [']']) ++ ['\n', '`', '`', '`'])) = _
    rw [List.dropWhile_cons, if_pos (by decide)]
    rw [show (('[' :: M ++ [']']) ++ (['\n', '`', '`', '`'] : List Char)) =
      '[' :: (M ++ [']'] ++ ['\n', '`', '`', '`']) from by simp]
    rw [List.dropWhile_cons, if_neg (by decide)]
  rw [hd]
  exact fenceSubF_no_tick _ ('[' :: M ++ [']'])
    (by simp only [List.length_cons, List.length_append, List.length_nil]; omega) h3

/-- Replacing triple backticks in a triple-free text followed by a newline
does nothing. -/
theorem pyReplaceF_ticks_id : ∀ (f : Nat) (l : List Char),
    l.length + 1 ≤ f → hasTripleTick l = false →
    pyReplaceF ['`', '`', '`'] [] f (l ++ ['\n']) = l ++ ['\n'] := by
  intro f
  induction f with
  | zero => intro l h _; omega
  | succ f ih =>
    intro l h ht
    cases l with
    | nil =>
      show pyReplaceF ['`', '`', '`'] [] (f + 1) ['\n'] = ['\n']
      rw [pyReplaceF, if_neg (fun hand => absurd hand.2 (by decide))]
      rw [pyReplaceF_nil]
    | cons c t =>
      have hcond : ¬ ((['`', '`', '`'] : List Char) ≠ [] ∧
          (List.isPrefixOf ['`', '`', '`'] (c :: (t ++ ['\n']))) = true) := by
        rintro ⟨-, hpre⟩
        have hb : ('`' == c && List.isPrefixOf ['`', '`'] (t ++ ['\n'])) = true := hpre
        rw [Bool.and_eq_true, beq_iff_eq] at hb
        obtain ⟨hc, hpre1⟩ := hb
        subst hc
        cases t with
        | nil => exact absurd hpre1 (by decide)
        | cons t0 t1 =>
          have hb1 : ('`' == t0 && List.isPrefixOf ['`'] (t1 ++ ['\n'])) = true := hpre1
          rw [Bool.and_eq_true, beq_iff_eq] at hb1
          obtain ⟨h0, hpre2⟩ := hb1
          subst h0
          cases t1 with
          | nil => exact absurd hpre2 (by decide)
          | cons t1h t2 =>
            have hb2 : ('`' == t1h && List.isPrefixOf [] (t2 ++ ['\n'])) = true := hpre2
            rw [Bool.and_eq_true, beq_iff_eq] at hb2
            obtain ⟨h1, -⟩ := hb2
            subst h1
            exact absurd ht (by simp [hasTripleTick])
      rw [List.cons_append, pyReplaceF, if_neg hcond]
      simp only [List.length_cons] at h
      rw [ih t (by omega) (hasTripleTick_cons_false ht)]

/-- `lastIdxOf` misses a character that does not occur. -/
theorem lastIdxOf_eq_none {c : Char} : ∀ {l : List Char}, c ∉ l → lastIdxOf c l = none := by
  intro l
  induction l with
  | nil => intro _; rfl
  | cons a t ih =>
    intro h
    rw [lastIdxOf, ih (fun hm => h (List.mem_cons_of_mem _ hm))]
    rw [if_neg (fun he => h (by rw [← he]; exact List.mem_cons_self _ _))]

/-- `lastIdxOf` finds the last occurrence. -/
theorem lastIdxOf_append_last (c : Char) (ys : List Char) (hys : c ∉ ys) :
    ∀ (xs : List Char), lastIdxOf c (xs ++ c :: ys) = some xs.length := by
  intro xs
  induction xs with
  | nil =>
    show lastIdxOf c (c :: ys) = some 0
    rw [lastIdxOf, lastIdxOf_eq_none hys, if_pos rfl]
  | cons a xs' ih =>
    show lastIdxOf c (a :: (xs' ++ c :: ys)) = some (xs'.length + 1)
    rw [lastIdxOf, ih]

/-- `str.strip()` does nothing to a `[...]`-delimited span. -/
theorem pyStrip_bracketed (M : List Char) :
    pyStrip ('[' :: M ++ [']']) = '[' :: M ++ [']'] := by
  unfold pyStrip
  rw [show ('[' :: M ++ [']'] : List Char) = '[' :: (M ++ [']']) from by simp]
  rw [List.dropWhile_cons, if_neg (by decide)]
  rw [show ('[' :: (M ++ [']'])).reverse = ']' :: (M.reverse ++ ['[']) from by simp]
  rw [List.dropWhile_cons, if_neg (by decide)]
  simp

/-- C3 (amended): for a JSON **array** serialization `J` (a `[...]` span
containing no triple backtick), extracting from the fence-wrapped
```` ```json\nJ\n``` ```` returns `J` itself verbatim — so it trivially
parses to the same value.  (For an object serialization the round-trip
holds only when the object's text contains no bracketed `[...]` span: the
greedy `[...]` search fires first and extracts the inner array instead,
see the counterexample.) -/
theorem c3_fenced_array_roundtrip (M : List Char)
    (h3 : hasTripleTick ('[' :: M ++ [']']) = false) :
    extract_json_from_text (fenceWrap ('[' :: M ++ [']'])) = '[' :: M ++ [']'] := by
  simp only [extract_json_from_text]
  rw [fenceSub_fenceWrap M h3]
  have ht2 : pyReplace ['`', '`', '`'] [] (('[' :: M ++ [']']) ++ ['\n']) =
      ('[' :: M ++ [']']) ++ ['\n'] := by
    unfold pyReplace
    exact pyReplaceF_ticks_id _ _ (by simp) h3
  rw [ht2]
  have hfirst : firstIdxOf '[' (('[' :: M ++ [']']) ++ ['\n']) = some 0 := by
    rw [show (('[' :: M ++ [']']) ++ ['\n'] : List Char) =
      '[' :: (M ++ [']'] ++ ['\n']) from by simp]
    rw [firstIdxOf, if_pos rfl]
  have hlast : lastIdxOf ']' (('[' :: M ++ [']']) ++ ['\n']) = some (M.length + 1) := by
    have h := lastIdxOf_append_last ']' ['\n'] (by decide) ('[' :: M)
    rw [show (('[' :: M) ++ ']' :: ['\n'] : List Char) =
      ('[' :: M ++ [']']) ++ ['\n'] from by simp] at h
    simpa using h
  unfold greedySpan
  simp only [hfirst, hlast]
  rw [if_pos (show (0 : Nat) < M.length + 1 by omega)]
  rw [List.drop_zero]
  rw [show M.length + 1 - 0 + 1 = ('[' :: M ++ [']']).length from by
    simp only [List.cons_append, List.length_append, List.length_cons, List.length_nil]
    omega]
  rw [List.take_left]
  exact pyStrip_bracketed M

/-- C3 counterexample: wrapping the valid object serialization
`{"a": [1, 2]}` in code fences and extracting yields `[1, 2]`, which
parses to a different JSON value than the original object. -/
theorem c3_counterexample_object_with_array :
    jsonParse "\x7b\"a\": [1, 2]\x7d".toList =
      some (Json.jobj [("a".toList, Json.jarr [Json.jint 1, Json.jint 2])]) ∧
    extract_json_from_text (fenceWrap "\x7b\"a\": [1, 2]\x7d".toList) = "[1, 2]".toList ∧
    jsonParse "[1, 2]".toList = some (Json.jarr [Json.jint 1, Json.jint 2]) ∧
    Json.jobj [("a".toList, Json.jarr [Json.jint 1, Json.jint 2])] ≠
      Json.jarr [Json.jint 1, Json.jint 2] :=
  ⟨rfl, rfl, rfl, fun h => Json.noConfusion h⟩

/-- Witness for the amended C3 on the concrete array `[1, 2]`. -/
theorem c3_fenced_array_roundtrip_witness :
    hasTripleTick ('[' :: "1, 2".toList ++ [']']) = false ∧
    extract_json_from_text (fenceWrap ('[' :: "1, 2".toList ++ [']'])) =
      '[' :: "1, 2".toList ++ [']'] :=
  ⟨by decide, c3_fenced_array_roundtrip "1, 2".toList (by decide)⟩

/-- Budget invariant of the telegram section loop: either the section is
exactly its starting text (no item fitted), or the whole message built
from it (context, section, footer) is under the 3500-character budget —
every appended item was guarded. -/
theorem telegramSection_budget (ctx footer : List Char)
    (render : Nat → SummaryItem → List Char) :
    ∀ (items : List SummaryItem) (i : Nat) (sec : List Char),
      (ctx ++ (telegramSection ctx footer render i sec items).1 ++ footer).length < 3500 ∨
      (telegramSection ctx footer render i sec items).1 = sec := by
  intro items
  induction items with
  | nil => intro i sec; exact Or.inr rfl
  | cons item rest ih =>
    intro i sec
    rw [telegramSection]
    dsimp only
    split
    · rename_i hguard
      rcases ih (i + 1) (sec ++ render i item) with hlt | heq
      · exact Or.inl hlt
      · left
        rw [heq]
        simp only [List.length_append] at hguard ⊢
        omega
    · exact Or.inr rfl

/-- The news count returned by the section loop never exceeds the number
of news items. -/
theorem telegramSection_count_le (ctx footer : List Char)
    (render : Nat → SummaryItem → List Char) :
    ∀ (items : List SummaryItem) (i : Nat) (sec : List Char),
      (telegramSection ctx footer render i sec items).2 ≤ items.length := by
  intro items
  induction items with
  | nil => intro i sec; exact Nat.le_refl 0
  | cons item rest ih =>
    intro i sec
    rw [telegramSection]
    dsimp only
    split
    · have := ih (i + 1) (sec ++ render i item)
      simp only [List.length_cons]
      omega
    · simp

/-- When news items were omitted, the News section carries the
indicator. -/
theorem telegramPartsN_indicator (ctx : List Char) (gN : List SummaryItem)
    (h : (telegramNewsPair ctx gN).2 < gN.length) :
    telegramPartsN ctx gN = (telegramNewsPair ctx gN).1 ++
      newsIndicator (gN.length - (telegramNewsPair ctx gN).2) := by
  have hne : gN ≠ [] := by
    intro he
    subst he
    simp [telegramNewsPair, telegramSection] at h
  unfold telegramPartsN
  rw [if_pos hne, if_pos h]

/-- Any optional section (header plus guarded items) overshoots a budget
that already covered the bare context by at most its section header. -/
theorem telegramSectionParts_bound (ctx sec : List Char)
    (render : Nat → SummaryItem → List Char) (items : List SummaryItem) (B : Nat)
    (hctx : (ctx ++ telegramFooter).length < B) (hB : 3500 ≤ B) :
    (ctx ++ (if items ≠ [] then (telegramSection ctx telegramFooter render 1 sec items).1
      else []) ++ telegramFooter).length < B + sec.length := by
  by_cases hi : items = []
  · rw [if_neg (fun hc => hc hi)]
    simp only [List.length_append, List.length_nil] at *
    omega
  · rw [if_pos hi]
    rcases telegramSection_budget ctx telegramFooter render items 1 sec with h | h
    · simp only [List.length_append] at *
      omega
    · rw [h]
      simp only [List.length_append] at *
      omega

/-- The Journal section stays within the plain 3500 budget when the header,
the Journal section header and the footer fit it. -/
theorem telegramPartsJ_bound (H : List Char) (gJ : List SummaryItem)
    (hhdr : H.length + journalSectionHdr.length + telegramFooter.length < 3500) :
    (H ++ telegramPartsJ H gJ ++ telegramFooter).length < 3500 := by
  unfold telegramPartsJ
  by_cases hgJ : gJ = []
  · rw [if_neg (fun hc => hc hgJ)]
    simp only [List.length_append, List.length_nil]
    omega
  · rw [if_pos hgJ]
    rcases telegramSection_budget H telegramFooter (telegramItem "Read Article".toList 200)
      gJ 1 journalSectionHdr with h | h
    · exact h
    · rw [h]
      simp only [List.length_append] at *
      omega

/-- C5 (amended): `send_visual_telegram` sends the message assembled by
`buildTelegramMessage`; whenever news items are omitted for length, the
truncation indicator `... and N more news items` is appended to the
message; and each item is only ever appended while the running message
(with footer) stays under the 3500-character budget — but the budget is
not a bound on the final message: the header is never budgeted, and the
section headers and the truncation indicator are appended without a
budget check, so (whenever the header, the Journal section header and the
footer fit the budget) the total length is only guaranteed below
3500 + the Paper and News section headers + the indicator. -/
theorem c5_telegram_budget_and_indicator :
    (∀ (ga hk : List Char) (gJ gP gN : List SummaryItem),
      (buildTelegramMessage ga hk gJ gP gN).2 < gN.length →
      ∃ pre post, (buildTelegramMessage ga hk gJ gP gN).1 =
        pre ++ newsIndicator (gN.length - (buildTelegramMessage ga hk gJ gP gN).2) ++ post) ∧
    (∀ (ga hk : List Char) (gJ gP gN : List SummaryItem),
      (telegramHeader ga hk gJ.length gP.length gN.length).length +
        journalSectionHdr.length + telegramFooter.length < 3500 →
      (buildTelegramMessage ga hk gJ gP gN).1.length <
        3500 + paperSectionHdr.length + newsSectionHdr.length +
        (newsIndicator (gN.length - (buildTelegramMessage ga hk gJ gP gN).2)).length) ∧
    (∀ (bt ct : List Char) (sd : Bundle) (hk : List Char)
        (gJ gP gN : List SummaryItem),
      groupsOf sd.summaries = .ok (gJ, gP, gN) → bt ≠ [] → ct ≠ [] →
      send_visual_telegram (some bt) (some ct) sd hk =
        .ok (some (buildTelegramMessage sd.generatedAt hk gJ gP gN))) := by
  refine ⟨?_, ?_, ?_⟩
  · intro ga hk gJ gP gN hcnt
    unfold buildTelegramMessage at hcnt ⊢
    dsimp only at hcnt ⊢
    generalize hH : telegramHeader ga hk gJ.length gP.length gN.length = H at hcnt ⊢
    generalize hJg : telegramPartsJ H gJ = pJ at hcnt ⊢
    generalize hPg : telegramPartsP (H ++ pJ) gP = pP at hcnt ⊢
    rw [telegramPartsN_indicator _ _ hcnt]
    exact ⟨H ++ pJ ++ pP ++ (telegramNewsPair (H ++ pJ ++ pP) gN).1, telegramFooter,
      by simp [List.append_assoc]⟩
  · intro ga hk gJ gP gN hhdr
    unfold buildTelegramMessage
    dsimp only
    generalize hH : telegramHeader ga hk gJ.length gP.length gN.length = H at hhdr ⊢
    have h1 : (H ++ telegramPartsJ H gJ ++ telegramFooter).length < 3500 :=
      telegramPartsJ_bound H gJ hhdr
    generalize hJg : telegramPartsJ H gJ = pJ at h1 ⊢
    have h2 : ((H ++ pJ) ++ telegramPartsP (H ++ pJ) gP ++ telegramFooter).length <
        3500 + paperSectionHdr.length :=
      telegramSectionParts_bound (H ++ pJ) paperSectionHdr
        (telegramItem "Read Paper".toList 200) gP 3500
        (by simp only [List.length_append] at h1 ⊢; omega) (Nat.le_refl _)
    generalize hPg : telegramPartsP (H ++ pJ) gP = pP at h2 ⊢
    have h3 : ((H ++ pJ ++ pP) ++ (if gN ≠ [] then
        (telegramSection (H ++ pJ ++ pP) telegramFooter
          (telegramItem "Read News".toList 150) 1 newsSectionHdr gN).1 else []) ++
        telegramFooter).length < (3500 + paperSectionHdr.length) + newsSectionHdr.length :=
      telegramSectionParts_bound (H ++ pJ ++ pP) newsSectionHdr
        (telegramItem "Read News".toList 150) gN (3500 + paperSectionHdr.length)
        (by simp only [List.length_append] at h2 ⊢; omega) (by omega)
    by_cases hn : (telegramNewsPair (H ++ pJ ++ pP) gN).2 < gN.length
    · rw [telegramPartsN_indicator _ _ hn]
      have hne : gN ≠ [] := by
        intro he
        subst he
        simp [telegramNewsPair, telegramSection] at hn
      rw [if_pos hne] at h3
      rw [show (telegramNewsPair (H ++ pJ ++ pP) gN).1 =
        (telegramSection (H ++ pJ ++ pP) telegramFooter
          (telegramItem "Read News".toList 150) 1 newsSectionHdr gN).1 from rfl]
      simp only [List.length_append] at h3 ⊢
      omega
    · have hpn : telegramPartsN (H ++ pJ ++ pP) gN = (if gN ≠ [] then
          (telegramSection (H ++ pJ ++ pP) telegramFooter
            (telegramItem "Read News".toList 150) 1 newsSectionHdr gN).1 else []) := by
        unfold telegramPartsN
        by_cases hne : gN = []
        · rw [if_neg (fun hc => hc hne), if_neg (fun hc => hc hne)]
        · rw [if_pos hne, if_pos hne, if_neg (fun hc => hn hc)]
          rfl
      rw [hpn]
      simp only [List.length_append] at h3 ⊢
      omega
  · intro bt ct sd hk gJ gP gN hg hbt hct
    unfold send_visual_telegram
    rw [if_neg (by simp [Option.getD, hbt, hct]), hg]

/-- Helper for the C5 counterexample and witness: the rendered length of
the oversized news item. -/
theorem c5Item_len : (telegramItem "Read News".toList 150 1 c5BigNews).length = 3219 := by
  simp only [telegramItem]
  rw [if_pos (show c5BigNews.url ≠ [] from by
    rw [show c5BigNews.url = 'u' :: List.replicate 3158 'u' from rfl]
    exact List.cons_ne_nil _ _)]
  rw [show c5BigNews.title = [] from rfl, show c5BigNews.summary = [] from rfl,
    show c5BigNews.url = 'u' :: List.replicate 3158 'u' from rfl]
  simp only [List.take_nil, List.length_append, List.length_cons, List.length_replicate]
  decide

/-- Helper for the C5 counterexample and witness: the assembled message on
the two-item bundle (one news item accepted, one omitted, indicator for
one omitted item appended). -/
theorem c5Build_eq : buildTelegramMessage "2025-10-10".toList [] [] [] [c5BigNews, c5SmallNews] =
    (telegramHeader "2025-10-10".toList [] 0 0 2 ++
      ((newsSectionHdr ++ telegramItem "Read News".toList 150 1 c5BigNews) ++
        newsIndicator 1) ++ telegramFooter, 1) := by
  have hsec : telegramSection (telegramHeader "2025-10-10".toList [] 0 0 2)
      telegramFooter (telegramItem "Read News".toList 150) 1 newsSectionHdr
      [c5BigNews, c5SmallNews] =
      (newsSectionHdr ++ telegramItem "Read News".toList 150 1 c5BigNews, 1) := by
    rw [telegramSection]
    dsimp only
    rw [if_pos (by
      simp only [List.length_append, c5Item_len]
      decide)]
    rw [telegramSection]
    dsimp only
    rw [if_neg (by
      simp only [List.length_append, c5Item_len]
      decide)]
  have hpair : telegramNewsPair (telegramHeader "2025-10-10".toList [] 0 0 2)
      [c5BigNews, c5SmallNews] =
      (newsSectionHdr ++ telegramItem "Read News".toList 150 1 c5BigNews, 1) := hsec
  have hN : telegramPartsN (telegramHeader "2025-10-10".toList [] 0 0 2)
      [c5BigNews, c5SmallNews] =
      (newsSectionHdr ++ telegramItem "Read News".toList 150 1 c5BigNews) ++
        newsIndicator 1 := by
    simp only [telegramPartsN]
    rw [hpair]
    dsimp only
    rw [if_pos (List.cons_ne_nil _ _)]
    rw [if_pos (show [c5BigNews, c5SmallNews].length > 1 from by decide)]
    rw [show [c5BigNews, c5SmallNews].length - 1 = 1 from rfl]
  simp only [buildTelegramMessage]
  rw [show ([] : List SummaryItem).length = 0 from rfl,
    show [c5BigNews, c5SmallNews].length = 2 from rfl]
  rw [show telegramPartsJ (telegramHeader "2025-10-10".toList [] 0 0 2) [] = [] from rfl]
  rw [List.append_nil]
  rw [show telegramPartsP (telegramHeader "2025-10-10".toList [] 0 0 2) [] = [] from rfl]
  rw [List.append_nil]
  rw [hN, hpair]

/-- C5 counterexample: with two news items (one accepted at 3499
characters total, one omitted), the truncation indicator pushes the final
message that `send_visual_telegram` sends to 3533 characters — the total
length is **not** under the 3500 budget. -/
theorem c5_counterexample_final_length_exceeds_budget :
    (buildTelegramMessage "2025-10-10".toList [] [] [] [c5BigNews, c5SmallNews]).2 = 1 ∧
    3500 ≤ ((buildTelegramMessage "2025-10-10".toList [] [] [] [c5BigNews, c5SmallNews]).1).length ∧
    send_visual_telegram (some "t".toList) (some "c".toList)
        ⟨[c5BigNews, c5SmallNews], "2025-10-10".toList⟩ [] =
      .ok (some (buildTelegramMessage "2025-10-10".toList [] [] []
        [c5BigNews, c5SmallNews])) := by
  refine ⟨by rw [c5Build_eq], ?_, rfl⟩
  rw [c5Build_eq]
  simp only [List.length_append, c5Item_len]
  decide

/-- C5 witness: the amended theorem instantiated on the two-item bundle —
the indicator appears in the sent message, the relaxed bound holds, and
the send goes through with the assembled message. -/
theorem c5_telegram_budget_and_indicator_witness :
    (∃ pre post,
      (buildTelegramMessage "2025-10-10".toList [] [] [] [c5BigNews, c5SmallNews]).1 =
        pre ++ newsIndicator ([c5BigNews, c5SmallNews].length -
          (buildTelegramMessage "2025-10-10".toList [] [] [] [c5BigNews, c5SmallNews]).2) ++
          post) ∧
    (buildTelegramMessage "2025-10-10".toList [] [] [] [c5BigNews, c5SmallNews]).1.length <
      3500 + paperSectionHdr.length + newsSectionHdr.length +
      (newsIndicator ([c5BigNews, c5SmallNews].length -
        (buildTelegramMessage "2025-10-10".toList [] [] [] [c5BigNews, c5SmallNews]).2)).length ∧
    send_visual_telegram (some "t".toList) (some "c".toList)
        ⟨[c5BigNews, c5SmallNews], "2025-10-10".toList⟩ [] =
      .ok (some (buildTelegramMessage "2025-10-10".toList [] [] []
        [c5BigNews, c5SmallNews])) := by
  refine ⟨c5_telegram_budget_and_indicator.1 "2025-10-10".toList [] [] []
      [c5BigNews, c5SmallNews] (by rw [c5Build_eq]; decide),
    c5_telegram_budget_and_indicator.2.1 "2025-10-10".toList [] [] []
      [c5BigNews, c5SmallNews] (by decide),
    c5_telegram_budget_and_indicator.2.2 "t".toList "c".toList
      ⟨[c5BigNews, c5SmallNews], "2025-10-10".toList⟩ [] [] []
      [c5BigNews, c5SmallNews] rfl (by decide) (by decide)⟩

end SixG
